import Mathlib

/-!
Verification development for the libdplyr DuckDB extension
(src/extension/src/dplyr.cpp, src/extension/src/dplyr_extension.cpp,
src/extension/include/dplyr_extension.h).

Strings are modelled as `List Char`; the sources only ever treat the
query text as a flat byte sequence and every input relevant here is
ASCII, where bytes and characters coincide.  Fallible C++ code that
throws `ParserException` and friends is modelled with `Except`; the
external transpiler engine (`dplyr_compile`, implemented outside this
repository) is a parameter of the functions that call it.
-/

namespace LibDplyr

/-! ### Character classes (C locale, ASCII) and trimming -/

/-- C locale `std::isspace` on ASCII: space, horizontal tab, newline,
vertical tab, form feed, carriage return.  DuckDB `StringUtil::Trim`
strips the same set. -/
def isSpaceChar (c : Char) : Bool :=
  c = ' ' || c = '\t' || c = '\n' || c = '\x0b' || c = '\x0c' || c = '\r'

/-- C locale `::toupper` on ASCII (used via `std::transform` in
`dplyr_parse`). -/
def asciiUpper (c : Char) : Char :=
  if 'a' ≤ c && c ≤ 'z' then Char.ofNat (c.toNat - 32) else c

/-- The character class accepted by `ExtractLeadingTableName`
(src/extension/src/dplyr.cpp line 798): `std::isalnum`, underscore or
dot. -/
def isTableNameChar (c : Char) : Bool :=
  c.isAlphanum || c = '_' || c = '.'

/-- The ASCII single quote character (code 39). -/
def squote : Char := Char.ofNat 39

/-- Left half of DuckDB `StringUtil::Trim`: drop leading whitespace. -/
def trimLeft (l : List Char) : List Char := l.dropWhile isSpaceChar

/-- Right half of DuckDB `StringUtil::Trim`: drop trailing whitespace. -/
def trimRight (l : List Char) : List Char :=
  (l.reverse.dropWhile isSpaceChar).reverse

/-- DuckDB `StringUtil::Trim`: strip ASCII whitespace from both ends. -/
def trimList (l : List Char) : List Char := trimRight (trimLeft l)

/-! ### Substring search (`std::string::find`) -/

/-- Byte offset of the first occurrence of `pat`, as `std::string::find`
computes it (`none` for `npos`). -/
def findSubstrPos (pat : List Char) : List Char → Option Nat
  | [] => if pat = [] then some 0 else none
  | c :: rest =>
    if pat.isPrefixOf (c :: rest) then some 0
    else (findSubstrPos pat rest).map (· + 1)

/-- `code.find(pat) != std::string::npos`. -/
def containsSub (pat : List Char) (l : List Char) : Bool :=
  (findSubstrPos pat l).isSome

/-- The dplyr chain operator literal used throughout the source. -/
def pipeToken : List Char := ['%', '>', '%']

/-! ### Marker Scanner
`FindEmbeddedStartMarker` / `FindEmbeddedEndMarker`
(src/extension/src/dplyr.cpp lines 814-848).  The helpers below scan a
suffix of the query and return offsets relative to that suffix; the
absolute-offset wrappers mirror the C++ signatures. -/

/-- Inner loop of `FindEmbeddedStartMarker` lines 819-823: from the
character after a candidate `(`, skip ASCII whitespace; `some k` is the
relative offset of a `|` found that way. -/
def scanToPipe : List Char → Option Nat
  | [] => none
  | c :: rest =>
    if isSpaceChar c then (scanToPipe rest).map (· + 1)
    else if c = '|' then some 0
    else none

/-- `FindEmbeddedStartMarker` relative to the scanned suffix: finds the
first `(` followed (skipping ASCII whitespace) by `|`; returns the
offset of the `(` (marker start) and the offset just past the `|`
(content start). -/
def findStartMarker : List Char → Option (Nat × Nat)
  | [] => none
  | c :: rest =>
    if c = '(' then
      match scanToPipe rest with
      | some k => some (0, k + 2)
      | none => (findStartMarker rest).map (fun q => (q.1 + 1, q.2 + 1))
    else
      (findStartMarker rest).map (fun q => (q.1 + 1, q.2 + 1))

/-- Inner loop of `FindEmbeddedEndMarker` lines 837-841: from the
character after a candidate `|`, skip ASCII whitespace; `some k` is the
relative offset of a `)` found that way. -/
def scanToClose : List Char → Option Nat
  | [] => none
  | c :: rest =>
    if isSpaceChar c then (scanToClose rest).map (· + 1)
    else if c = ')' then some 0
    else none

/-- `FindEmbeddedEndMarker` relative to the scanned suffix: finds the
first `|` followed (skipping ASCII whitespace) by `)`; returns the
offset of the `|` (content end) and the offset of the `)` (marker
end). -/
def findEndMarker : List Char → Option (Nat × Nat)
  | [] => none
  | c :: rest =>
    if c = '|' then
      match scanToClose rest with
      | some k => some (0, k + 1)
      | none => (findEndMarker rest).map (fun q => (q.1 + 1, q.2 + 1))
    else
      (findEndMarker rest).map (fun q => (q.1 + 1, q.2 + 1))

/-- `FindEmbeddedStartMarker(query, from, marker_start, content_start)`
with absolute offsets (`none` models returning `false`). -/
def FindEmbeddedStartMarker (query : List Char) (start : Nat) : Option (Nat × Nat) :=
  (findStartMarker (query.drop start)).map (fun q => (start + q.1, start + q.2))

/-- `FindEmbeddedEndMarker(query, from, content_end, marker_end)` with
absolute offsets. -/
def FindEmbeddedEndMarker (query : List Char) (start : Nat) : Option (Nat × Nat) :=
  (findEndMarker (query.drop start)).map (fun q => (start + q.1, start + q.2))

/-- `ContainsEmbeddedPipelines` (src/extension/src/dplyr.cpp lines
850-854). -/
def ContainsEmbeddedPipelines (query : List Char) : Bool :=
  (FindEmbeddedStartMarker query 0).isSome

/-- The scanner round trip as `ReplaceEmbeddedPipelines` performs it on
the first embedded segment: find the start marker from offset 0, find
the end marker from the content start, and extract
`query.substr(content_start, content_end - content_start)`. -/
def recoverEmbedded (query : List Char) : Option (List Char) :=
  match FindEmbeddedStartMarker query 0 with
  | none => none
  | some (_, contentStart) =>
    match FindEmbeddedEndMarker query contentStart with
    | none => none
    | some (contentEnd, _) =>
      some ((query.drop contentStart).take (contentEnd - contentStart))

/-! ### Error values
One constructor per distinct throw site / outcome reached by the code
modelled here. -/

/-- Errors raised by the validator, the transpile invoker and the
fragment replacer (each constructor stands for one `throw` site of the
C++ source, carrying the data interpolated into its message). -/
inductive DErr where
  | controlCharacter (pos : Nat)
  | excessiveNesting (depth : Int)
  | excessiveRepetition (op : List Char)
  | excessiveStringLiteral (len : Nat)
  | suspiciousPattern (pat : List Char)
  | timeout (elapsedMs maxMs : Nat)
  | engineError (code : Int) (msg : List Char)
  | emptySql
  | unterminatedEmbedding
  | emptyEmbedded
  | missingPipeline
  | missingTableName
  | fuelExhausted
deriving DecidableEq

/-! ### C API constants (src/extension/include/dplyr_extension.h lines
36-52) -/

def DPLYR_SUCCESS : Int := 0
def DPLYR_ERROR_NULL_POINTER : Int := -1
def DPLYR_ERROR_INVALID_UTF8 : Int := -2
def DPLYR_ERROR_INPUT_TOO_LARGE : Int := -3
def DPLYR_ERROR_TIMEOUT : Int := -4
def DPLYR_ERROR_SYNTAX : Int := -5
def DPLYR_ERROR_UNSUPPORTED : Int := -6
def DPLYR_ERROR_INTERNAL : Int := -7
def DPLYR_ERROR_PANIC : Int := -8

/-- The header documents `dplyr_is_success` as testing for
`DPLYR_SUCCESS` (0): "0 on success, negative error code on failure". -/
def dplyr_is_success (code : Int) : Bool := code = DPLYR_SUCCESS

/-- Modelled from the spec: `dplyr_is_recoverable_error` is implemented
in the external Rust C API, which is not under src/; the spec (section 7)
fixes the recoverability table: NullOrMalformedInput, InputTooLarge,
Timeout, SyntaxError and UnsupportedOperation are recoverable,
InternalError (and panic) is not. -/
def dplyr_is_recoverable_error (code : Int) : Bool :=
  code = DPLYR_ERROR_NULL_POINTER || code = DPLYR_ERROR_INVALID_UTF8 ||
  code = DPLYR_ERROR_INPUT_TOO_LARGE || code = DPLYR_ERROR_TIMEOUT ||
  code = DPLYR_ERROR_SYNTAX || code = DPLYR_ERROR_UNSUPPORTED

/-! ### Input Security Validator
`DplyrInputValidator` (src/extension/src/dplyr.cpp lines 485-738).
Debug-log calls are pure observers and are omitted. -/

/-- Loop of `validate_character_safety` lines 545-570.  A byte below
0x20 other than tab, newline, carriage return is fatal at its position;
the high-bit heuristic on lines 558-569 only logs a warning and is
omitted. -/
def charSafetyLoop : List Char → Nat → Except DErr Unit
  | [], _ => .ok ()
  | c :: rest, i =>
    if c.toNat < 32 && c ≠ '\t' && c ≠ '\n' && c ≠ '\r' then
      .error (.controlCharacter i)
    else charSafetyLoop rest (i + 1)

/-- `DplyrInputValidator::validate_character_safety`. -/
def validate_character_safety (code : List Char) : Except DErr Unit :=
  charSafetyLoop code 0

/-- The signed bracket delta of `validate_nesting_depth`: +1 on `(`,
`[`, `{`; -1 on `)`, `]`, `}`; 0 otherwise. -/
def bracketDelta (c : Char) : Int :=
  if c = '(' || c = '[' || c = '{' then 1
  else if c = ')' || c = ']' || c = '}' then -1
  else 0

/-- Running bracket depth of a fragment (sum of `bracketDelta`). -/
def depthOf (l : List Char) : Int := (l.map bracketDelta).sum

/-- Loop of `validate_nesting_depth` lines 584-601: the depth counter is
checked against `MAX_NESTING_DEPTH` (50) immediately after each
increment and never on a decrement (`max_depth` only feeds a debug
log and is omitted). -/
def nestingLoop : List Char → Int → Except DErr Unit
  | [], _ => .ok ()
  | c :: rest, depth =>
    if c = '(' || c = '[' || c = '{' then
      if depth + 1 > 50 then .error (.excessiveNesting (depth + 1))
      else nestingLoop rest (depth + 1)
    else if c = ')' || c = ']' || c = '}' then
      nestingLoop rest (depth - 1)
    else nestingLoop rest depth

/-- `DplyrInputValidator::validate_nesting_depth` (lines 579-605). -/
def validate_nesting_depth (code : List Char) : Except DErr Unit :=
  nestingLoop code 0

/-- Non-overlapping occurrence count of `op`, as the
`code.find(op, pos)` / `pos += op.length()` loop of
`validate_repetitive_patterns` computes it: after a match the scan
resumes past the matched occurrence (the skip argument consumes the
rest of a match).  For the (unreachable) empty operator this returns
0. -/
def countAux (op : List Char) : List Char → Nat → Nat
  | [], _ => 0
  | _ :: rest, skip + 1 => countAux op rest skip
  | c :: rest, 0 =>
    if op ≠ [] ∧ op.isPrefixOf (c :: rest) then
      1 + countAux op rest (op.length - 1)
    else
      countAux op rest 0

/-- Non-overlapping occurrence count of `op` in a text. -/
def countNonOverlapping (op : List Char) (l : List Char) : Nat :=
  countAux op l 0

/-- The operator literals of `validate_repetitive_patterns` line 617,
in source order. -/
def repetitionOperators : List (List Char) :=
  ["%>%".toList, "==".toList, "!=".toList, "<=".toList, ">=".toList,
   "&&".toList, "||".toList]

/-- Per-operator loop of `validate_repetitive_patterns`: more than
`MAX_REPETITIONS` (100) occurrences of an operator is fatal, naming the
operator; operators are checked in list order. -/
def repetitionLoop : List (List Char) → List Char → Except DErr Unit
  | [], _ => .ok ()
  | op :: rest, code =>
    if countNonOverlapping op code > 100 then .error (.excessiveRepetition op)
    else repetitionLoop rest code

/-- `DplyrInputValidator::validate_repetitive_patterns` (lines
613-637). -/
def validate_repetitive_patterns (code : List Char) : Except DErr Unit :=
  repetitionLoop repetitionOperators code

/-- String-literal scan of `validate_resource_patterns` lines 663-691:
track quoted literals by delimiter with backslash-escape awareness; a
closing delimiter at index `i` with opener at `st` is fatal when
`i - st` exceeds `MAX_STRING_LENGTH` (10000).  Arguments: remaining
text, current index, open literal (delimiter, start index) if any,
previous character. -/
def resourceStringScan : List Char → Nat → Option (Char × Nat) → Char → Except DErr Unit
  | [], _, _, _ => .ok ()
  | c :: rest, i, none, _ =>
    if c = '"' || c = squote then resourceStringScan rest (i + 1) (some (c, i)) c
    else resourceStringScan rest (i + 1) none c
  | c :: rest, i, some (d, st), prev =>
    if c = d then
      if 0 < i ∧ prev ≠ '\\' then
        if i - st > 10000 then .error (.excessiveStringLiteral (i - st))
        else resourceStringScan rest (i + 1) none c
      else resourceStringScan rest (i + 1) (some (d, st)) c
    else resourceStringScan rest (i + 1) (some (d, st)) c

/-- `DplyrInputValidator::validate_resource_patterns` (lines 645-692).
The `resource_patterns` substring matches on lines 647-660 only log
warnings and never reject, so only the string-literal scan remains. -/
def validate_resource_patterns (code : List Char) : Except DErr Unit :=
  resourceStringScan code 0 none ' '

/-- The injection blocklist of
`validate_advanced_security_patterns` lines 702-708, in source order. -/
def injectionPatterns : List (List Char) :=
  ["system(".toList, "shell(".toList, "exec(".toList, "eval(".toList,
   "parse(".toList, "source(".toList, "load(".toList, "library(".toList,
   "require(".toList, "Sys.setenv(".toList, "options(".toList,
   "getOption(".toList, ".Call(".toList, ".External(".toList,
   ".C(".toList, ".Fortran(".toList, "dyn.load(".toList,
   "dyn.unload(".toList]

/-- First pattern of `pats` occurring in `code`, in list order. -/
def firstMatch (pats : List (List Char)) (code : List Char) : Option (List Char) :=
  match pats with
  | [] => none
  | p :: rest => if containsSub p code then some p else firstMatch rest code

/-- `DplyrInputValidator::validate_advanced_security_patterns` (lines
700-737): any injection-pattern match is fatal, naming the pattern; the
filesystem-pattern list on lines 721-725 only logs warnings. -/
def validate_advanced_security_patterns (code : List Char) : Except DErr Unit :=
  match firstMatch injectionPatterns code with
  | some p => .error (.suspiciousPattern p)
  | none => .ok ()

/-- `DplyrInputValidator::validate_input_security` (lines 493-510): the
five checks run in fixed order and the first failure propagates. -/
def validate_input_security (code : List Char) : Except DErr Unit :=
  match validate_character_safety code with
  | .error e => .error e
  | .ok _ =>
    match validate_nesting_depth code with
    | .error e => .error e
    | .ok _ =>
      match validate_repetitive_patterns code with
      | .error e => .error e
      | .ok _ =>
        match validate_resource_patterns code with
        | .error e => .error e
        | .ok _ => validate_advanced_security_patterns code

/-! ### Transpile Invoker
`TranspileDplyrCode` (src/extension/src/dplyr.cpp lines 742-787).  The
external engine `dplyr_compile` is a parameter; one call returns the C
result code, the two output pointers, and the wall time the call took
(the quantity `check_processing_timeout` measures). -/

/-- One observed call of the external engine `dplyr_compile`. -/
structure EngineReturn where
  result : Int
  sqlOut : Option (List Char)
  errOut : Option (List Char)
  elapsedMs : Nat
deriving DecidableEq

/-- The external engine as seen by the invoker. -/
def Engine : Type := List Char → EngineReturn

/-- Fallback message of line 762. -/
def unknownCompileError : List Char := "Unknown dplyr compilation error".toList

/-- `TranspileDplyrCode`: call the engine, then
`check_processing_timeout` (lines 518-531, throwing when the elapsed
time exceeds the configured maximum), then map an engine failure
through `DplyrErrorHandler::handle_error`, then reject an empty SQL
payload (line 774). -/
def TranspileDplyrCode (maxMs : Nat) (eng : Engine) (code : List Char) :
    Except DErr (List Char) :=
  let r := eng code
  if r.elapsedMs > maxMs then .error (.timeout r.elapsedMs maxMs)
  else if dplyr_is_success r.result = false then
    .error (.engineError r.result (r.errOut.getD unknownCompileError))
  else
    let sql := r.sqlOut.getD []
    if sql = [] then .error .emptySql
    else .ok sql

/-- The consecutive calls `DplyrInputValidator::validate_input_security`
then `TranspileDplyrCode` exactly as each call site performs them
(src/extension/src/dplyr.cpp lines 893-894 and 938-939). -/
def validateThenTranspile (maxMs : Nat) (eng : Engine) (code : List Char) :
    Except DErr (List Char) :=
  match validate_input_security code with
  | .error e => .error e
  | .ok _ => TranspileDplyrCode maxMs eng code

/-! ### Fragment helpers -/

/-- `ExtractLeadingTableName` (lines 789-803): the trimmed text before
the first chain operator, valid only if every character is
alphanumeric, underscore or dot; empty list models the empty string. -/
def ExtractLeadingTableName (code : List Char) : List Char :=
  let pre :=
    match findSubstrPos pipeToken code with
    | none => code
    | some p => code.take p
  let pre := trimList pre
  if pre = [] then []
  else if pre.all isTableNameChar then pre
  else []

/-- Loop of `StripTrailingSemicolon` (lines 805-812): while the text
ends in a semicolon, pop it and re-trim.  The fuel always suffices
because every iteration shortens the list. -/
def stripSemiAux : Nat → List Char → List Char
  | 0, l => l
  | fuel + 1, l =>
    if l.getLast? = some ';' then stripSemiAux fuel (trimList l.dropLast)
    else l

/-- `StripTrailingSemicolon`: trim, then repeatedly pop a trailing
semicolon and re-trim until stable. -/
def StripTrailingSemicolon (l : List Char) : List Char :=
  stripSemiAux (l.length + 1) (trimList l)

/-! ### Fragment Replacer
`ReplaceEmbeddedPipelines` (src/extension/src/dplyr.cpp lines 856-904).
The validator is a parameter so that the theorems can state that a text
without markers is passed through untouched by every validator; the
top-level wrapper instantiates it with the real
`validate_input_security`. -/

/-- A validator as the replacer calls it. -/
def Validator : Type := List Char → Except DErr Unit

/-- The replacement loop, one iteration per embedded segment, recursing
on the text after the consumed end marker (`cursor = marker_end + 1`).
Fuel is an upper bound on the number of iterations; it is unreachable
at the instantiated value because every iteration strictly shortens the
remaining text. -/
def replaceEmbeddedAux (v : Validator) (maxMs : Nat) (eng : Engine) :
    Nat → List Char → Except DErr (List Char)
  | 0, _ => .error .fuelExhausted
  | fuel + 1, s =>
    match findStartMarker s with
    | none => .ok s
    | some (ms, cs) =>
      let before := s.take ms
      match findEndMarker (s.drop cs) with
      | none => .error .unterminatedEmbedding
      | some (ce, me) =>
        let raw := (s.drop cs).take ce
        let embedded := StripTrailingSemicolon (trimList raw)
        if embedded = [] then .error .emptyEmbedded
        else if containsSub pipeToken embedded = false then .error .missingPipeline
        else if ExtractLeadingTableName embedded = [] then .error .missingTableName
        else
          match v embedded with
          | .error e => .error e
          | .ok _ =>
            match TranspileDplyrCode maxMs eng embedded with
            | .error e => .error e
            | .ok sql =>
              match replaceEmbeddedAux v maxMs eng fuel ((s.drop cs).drop (me + 1)) with
              | .error e => .error e
              | .ok tailOut => .ok (before ++ '(' :: (sql ++ ')' :: tailOut))

/-- `ReplaceEmbeddedPipelines`. -/
def ReplaceEmbeddedPipelines (maxMs : Nat) (eng : Engine) (query : List Char) :
    Except DErr (List Char) :=
  replaceEmbeddedAux validate_input_security maxMs eng (query.length + 1) query

/-! ### Parse entry point
`dplyr_parse` (src/extension/src/dplyr.cpp lines 906-957). -/

/-- Error results of `dplyr_parse`, one constructor per distinct
diagnostic: `unprocessedPipeline` is the line 927-928 diagnostic
("Unprocessed %>% pipeline remains. Wrap pipelines with (| ... |) or
provide a pure pipeline statement."), `nonSelect` the line 948
diagnostic ("DPLYR generated a non-SELECT statement; only SELECT is
supported"), `raised e` a caught exception. -/
inductive ParseErr where
  | emptyPipeline
  | unprocessedPipeline
  | missingTableName
  | nonSelect
  | raised (e : DErr)
deriving DecidableEq

/-- `ParserExtensionParseResult`: not-for-this-extension, an error
message, or accepted generated SQL (the `DplyrParseData` payload). -/
inductive ParseResult where
  | unrecognized
  | failure (e : ParseErr)
  | success (sql : List Char)
deriving DecidableEq

/-- The basic SQL validation of lines 942-947: uppercase, trim, and
require prefix `SELECT` or `WITH` (`rfind(x, 0) == 0`). -/
def checkSelectOrWith (sql : List Char) : Bool :=
  let u := trimList (sql.map asciiUpper)
  "SELECT".toList.isPrefixOf u || "WITH".toList.isPrefixOf u

/-- The `try` body of `dplyr_parse` up to the generated SQL: the
embedded branch (replace, then reject leftover chain operators) or the
whole-statement branch (strip semicolon, table-name check, validate,
transpile).  Thrown `DErr` values surface as `.raised`. -/
def dplyrParseBody (maxMs : Nat) (eng : Engine) (trimmed : List Char) :
    Except ParseErr (List Char) :=
  if ContainsEmbeddedPipelines trimmed then
    match ReplaceEmbeddedPipelines maxMs eng trimmed with
    | .error e => .error (.raised e)
    | .ok sql =>
      if containsSub pipeToken sql then .error .unprocessedPipeline
      else .ok sql
  else
    let code := StripTrailingSemicolon trimmed
    if ExtractLeadingTableName code = [] then .error .missingTableName
    else
      match validate_input_security code with
      | .error e => .error (.raised e)
      | .ok _ =>
        match TranspileDplyrCode maxMs eng code with
        | .error e => .error (.raised e)
        | .ok sql => .ok sql

/-- `dplyr_parse`: trim; defer to the host grammar when the chain
operator is absent; otherwise run the body and finish with the
SELECT/WITH prefix validation. -/
def dplyr_parse (maxMs : Nat) (eng : Engine) (query : List Char) : ParseResult :=
  let trimmed := trimList query
  if containsSub pipeToken trimmed = false then .unrecognized
  else if trimmed = [] then .failure .emptyPipeline
  else
    match dplyrParseBody maxMs eng trimmed with
    | .error e => .failure e
    | .ok sql =>
      if checkSelectOrWith sql then .success sql
      else .failure .nonSelect

/-! ### Acceptance state machine, session-state variant
`dplyr_plan` / `dplyr_bind` (src/extension/src/dplyr_extension.cpp lines
1011-1045) and `DplyrState`
(src/extension/include/dplyr_extension.h lines 706-714).  Only the
session state keyed `"dplyr"` matters: `registered = none` models the
key being absent from `context.registered_state`, and the inner
`Option` is the `DplyrState::parse_data` pointer (null when reset). -/

/-- The per-session registered state at key `"dplyr"`. -/
structure SessionState (α : Type) where
  registered : Option (Option α)
deriving DecidableEq

/-- Outcomes of `dplyr_bind` when it looks the state up. -/
inductive BindErr where
  | stateNotFound
  | invalidParseData
deriving DecidableEq

/-- State effect of `dplyr_plan` lines 1013-1015: `Remove("dplyr")`
then `Insert("dplyr", state)` with a fresh `DplyrState` wrapping the
parse data (the function then throws `BinderException("Use dplyr_bind
instead")`, handing control to the operator extension). -/
def dplyrPlanState {α : Type} (a : Option α) (_s : SessionState α) : SessionState α :=
  ⟨some a⟩

/-- What `dplyr_bind` lines 1029-1041 reads: the registered state, then
its `parse_data`; a missing registration throws "Registered DPLYR state
not found", a null payload throws "Invalid DPLYR parse data". -/
def dplyrBindRead {α : Type} (s : SessionState α) : Except BindErr α :=
  match s.registered with
  | none => .error .stateNotFound
  | some none => .error .invalidParseData
  | some (some a) => .ok a

/-- State effect of `dplyr_bind`: the function only calls
`registered_state->Get` and never removes or resets the entry, so the
session state is returned unchanged. -/
def dplyrBindState {α : Type} (s : SessionState α) : SessionState α := s

/-- `DplyrState::QueryEnd` (header line 711): `parse_data.reset()` on
the registered state, if any, when the query ends. -/
def dplyrQueryEnd {α : Type} (s : SessionState α) : SessionState α :=
  ⟨s.registered.map (fun _ => none)⟩

/-! ### Error Formatter
`DplyrErrorHandler::format_error_message` /
`truncate_code_for_display` / `get_error_suggestions`
(src/extension/src/dplyr.cpp lines 152-243).  `dplyr_error_code_name`,
`dplyr_max_input_length` and `dplyr_max_processing_time_ms` live in the
external C API and are parameters. -/

/-- `truncate_code_for_display` (lines 187-195): quote the code,
truncating to `MAX_DISPLAY_LENGTH - 3` (197) characters plus an
ellipsis when it exceeds `MAX_DISPLAY_LENGTH` (200). -/
def truncate_code_for_display (code : List Char) : List Char :=
  if code.length ≤ 200 then squote :: (code ++ [squote])
  else squote :: (code.take 197 ++ ('.' :: '.' :: '.' :: [squote]))

/-- Trailer appended for recoverable codes (line 173). -/
def recoverableTrailer : List Char :=
  "\n\nThis error is recoverable. You can try again with corrected input.".toList

/-- Trailer appended for fatal codes (line 175). -/
def fatalTrailer : List Char :=
  "\n\nThis is a fatal error. Please check your system configuration.".toList

/-- `get_error_suggestions` (lines 204-243): a fixed per-code bullet
list (quoting the configured limits for the size and time codes), plus
the common debug-mode line. -/
def get_error_suggestions (maxInputLen maxTimeMs : Nat) (code : Int) : List Char :=
  let sugg : String :=
    if code = DPLYR_ERROR_SYNTAX then
      "\n  - Check dplyr function syntax (select, filter, mutate, etc.)\n  - Ensure proper use of pipe operator (%>%)\n  - Verify column names and function arguments\n  - Check for balanced parentheses and quotes"
    else if code = DPLYR_ERROR_UNSUPPORTED then
      "\n  - Use supported dplyr functions: select, filter, mutate, arrange, summarise, group_by\n  - Check if the operation is supported in DuckDB dialect\n  - Consider breaking complex operations into simpler steps"
    else if code = DPLYR_ERROR_INPUT_TOO_LARGE then
      "\n  - Reduce the length of your dplyr code\n  - Break complex pipelines into multiple steps\n  - Current limit: " ++ toString maxInputLen ++ " characters"
    else if code = DPLYR_ERROR_TIMEOUT then
      "\n  - Simplify your dplyr pipeline\n  - Avoid deeply nested operations\n  - Current timeout: " ++ toString maxTimeMs ++ "ms"
    else
      "\n  - Check the dplyr documentation for correct syntax\n  - Try a simpler version of your pipeline first"
  (sugg ++ "\n  - Enable debug mode with DPLYR_DEBUG=1 for more details").toList

/-- Header before the fragment echo (line 166). -/
def inputCodeHeader : List Char := "\n\nInput code: ".toList

/-- Header before the suggestions (line 167). -/
def suggestionsHeader : List Char := "\n\nSuggestions:".toList

/-- `format_error_message` (lines 152-179): bracketed code name (when
the name is nonempty), the raw message, fragment echo and suggestions
for the syntax and unsupported codes, and the recoverability trailer. -/
def format_error_message (nameFn : Int → List Char) (maxInputLen maxTimeMs : Nat)
    (code : Int) (msg dcode : List Char) : List Char :=
  let name := nameFn code
  let base := if name = [] then msg else '[' :: (name ++ (']' :: ' ' :: msg))
  let formatted :=
    if code = DPLYR_ERROR_SYNTAX || code = DPLYR_ERROR_UNSUPPORTED then
      base ++ (inputCodeHeader ++ (truncate_code_for_display dcode ++
        (suggestionsHeader ++ get_error_suggestions maxInputLen maxTimeMs code)))
    else base
  if dplyr_is_recoverable_error code then formatted ++ recoverableTrailer
  else formatted ++ fatalTrailer

/-- The fragment echo inside `truncate_code_for_display`: the full
fragment verbatim when it is at most 200 characters, otherwise its
first 197 characters with the three-dot ellipsis marker appended. -/
def syntaxErrorEcho (frag : List Char) : List Char :=
  if frag.length ≤ 200 then frag else frag.take 197 ++ ('.' :: '.' :: '.' :: [])

/-! ## Theorems -/

/-! ### Trimming lemmas -/

theorem dropWhile_head?_not {p : Char → Bool} :
    ∀ {l : List Char} {c : Char}, (l.dropWhile p).head? = some c → p c = false := by
  intro l
  induction l with
  | nil => intro c hc; simp at hc
  | cons a t ih =>
    intro c hc
    by_cases hp : p a
    · rw [List.dropWhile_cons, if_pos hp] at hc
      exact ih hc
    · rw [List.dropWhile_cons, if_neg hp] at hc
      simp only [List.head?_cons, Option.some.injEq] at hc
      subst hc
      exact Bool.eq_false_iff.mpr hp

theorem trimRight_prefix_self (l : List Char) : trimRight l <+: l := by
  refine ⟨(l.reverse.takeWhile isSpaceChar).reverse, ?_⟩
  have h := List.takeWhile_append_dropWhile (p := isSpaceChar) (l := l.reverse)
  have h2 := congrArg List.reverse h
  rw [List.reverse_append, List.reverse_reverse] at h2
  simpa [trimRight] using h2

theorem trimLeft_suffix_self (l : List Char) : trimLeft l <:+ l :=
  ⟨l.takeWhile isSpaceChar, List.takeWhile_append_dropWhile _ _⟩

theorem trimList_infix_self (l : List Char) : trimList l <:+: l :=
  (trimRight_prefix_self (trimLeft l)).isInfix.trans (trimLeft_suffix_self l).isInfix

theorem trimList_length_le (l : List Char) : (trimList l).length ≤ l.length :=
  (trimList_infix_self l).length_le

theorem trimList_head?_not_space {l : List Char} {c : Char}
    (h : (trimList l).head? = some c) : isSpaceChar c = false := by
  obtain ⟨t, ht⟩ := trimRight_prefix_self (trimLeft l)
  rcases htr : trimRight (trimLeft l) with _ | ⟨a, r⟩
  · rw [trimList, htr] at h; simp at h
  · rw [trimList, htr] at h
    simp only [List.head?_cons, Option.some.injEq] at h
    rw [htr] at ht
    have hhead : (trimLeft l).head? = some a := by
      rw [← ht]; simp
    have hres := dropWhile_head?_not hhead
    rw [← h]
    exact hres

theorem trimList_getLast?_not_space {l : List Char} {c : Char}
    (h : (trimList l).getLast? = some c) : isSpaceChar c = false := by
  have h2 : ((trimLeft l).reverse.dropWhile isSpaceChar).head? = some c := by
    have := List.getLast?_reverse ((trimLeft l).reverse.dropWhile isSpaceChar)
    rw [trimList, trimRight] at h
    rw [← this]; exact h
  exact dropWhile_head?_not h2

theorem trimLeft_eq_self_of_head {l : List Char}
    (h : ∀ c, l.head? = some c → isSpaceChar c = false) : trimLeft l = l := by
  cases l with
  | nil => rfl
  | cons a t =>
    have := h a (by simp)
    simp [trimLeft, List.dropWhile_cons, this]

theorem trimRight_eq_self_of_getLast {l : List Char}
    (h : ∀ c, l.getLast? = some c → isSpaceChar c = false) : trimRight l = l := by
  have hrev : l.reverse.dropWhile isSpaceChar = l.reverse := by
    have : ∀ c, l.reverse.head? = some c → isSpaceChar c = false := by
      intro c hc
      rw [List.head?_reverse] at hc
      exact h c hc
    exact trimLeft_eq_self_of_head this
  rw [trimRight, hrev, List.reverse_reverse]

theorem trimList_idem (l : List Char) : trimList (trimList l) = trimList l := by
  have h1 : trimLeft (trimList l) = trimList l :=
    trimLeft_eq_self_of_head (fun _ hc => trimList_head?_not_space hc)
  have h2 : trimRight (trimList l) = trimList l :=
    trimRight_eq_self_of_getLast (fun _ hc => trimList_getLast?_not_space hc)
  calc trimList (trimList l) = trimRight (trimLeft (trimList l)) := rfl
    _ = trimRight (trimList l) := by rw [h1]
    _ = trimList l := h2

/-! ### The semicolon-stripper loop invariant -/

theorem stripSemiAux_eq_self {l : List Char} (h : l.getLast? ≠ some ';') (n : Nat) :
    stripSemiAux (n + 1) l = l := by
  simp [stripSemiAux, h]

theorem stripSemiAux_spec :
    ∀ (fuel : Nat) (l : List Char), l.length < fuel → trimList l = l →
      trimList (stripSemiAux fuel l) = stripSemiAux fuel l ∧
      (stripSemiAux fuel l).getLast? ≠ some ';' ∧
      stripSemiAux fuel l <:+: l := by
  intro fuel
  induction fuel with
  | zero => intro l hl _; exact absurd hl (Nat.not_lt_zero _)
  | succ n ih =>
    intro l hl htrim
    by_cases hlast : l.getLast? = some ';'
    · have hne : l ≠ [] := by intro h; subst h; simp at hlast
      have hlen : (trimList l.dropLast).length < n := by
        have h1 : (trimList l.dropLast).length ≤ l.dropLast.length := trimList_length_le _
        have h2 : l.dropLast.length = l.length - 1 := List.length_dropLast l
        have h3 : 0 < l.length := List.length_pos.mpr hne
        omega
      obtain ⟨t1, t2, t3⟩ := ih (trimList l.dropLast) hlen (trimList_idem _)
      have hstep : stripSemiAux (n + 1) l = stripSemiAux n (trimList l.dropLast) := by
        simp [stripSemiAux, hlast]
      refine ⟨?_, ?_, ?_⟩
      · rw [hstep]; exact t1
      · rw [hstep]; exact t2
      · have hinf1 : trimList l.dropLast <:+: l.dropLast := trimList_infix_self _
        have hinf2 : l.dropLast <:+: l := by
          refine ⟨[], [l.getLast hne], ?_⟩
          simp [List.dropLast_append_getLast hne]
        rw [hstep]
        exact t3.trans (hinf1.trans hinf2)
    · have heq : stripSemiAux (n + 1) l = l := by simp [stripSemiAux, hlast]
      rw [heq]
      exact ⟨htrim, hlast, List.infix_rfl⟩

/-- C10: for every input, the trailing-semicolon stripper
(`StripTrailingSemicolon`, src/extension/src/dplyr.cpp lines 805-812)
returns a text with no leading or trailing ASCII whitespace and no
trailing semicolon, the result is a contiguous substring of the input,
and the operation is idempotent. -/
theorem c10_strip_trailing_semicolon_props (l : List Char) :
    (∀ c, (StripTrailingSemicolon l).head? = some c → isSpaceChar c = false) ∧
    (∀ c, (StripTrailingSemicolon l).getLast? = some c → isSpaceChar c = false ∧ c ≠ ';') ∧
    StripTrailingSemicolon l <:+: l ∧
    StripTrailingSemicolon (StripTrailingSemicolon l) = StripTrailingSemicolon l := by
  obtain ⟨h1, h2, h3⟩ :=
    stripSemiAux_spec (l.length + 1) (trimList l)
      (by have := trimList_length_le l; omega) (trimList_idem l)
  have hR : StripTrailingSemicolon l = stripSemiAux (l.length + 1) (trimList l) := rfl
  refine ⟨?_, ?_, ?_, ?_⟩
  · intro c hc
    rw [hR] at hc
    rw [← h1] at hc
    exact trimList_head?_not_space hc
  · intro c hc
    rw [hR] at hc
    constructor
    · rw [← h1] at hc
      exact trimList_getLast?_not_space hc
    · intro hcsemi
      subst hcsemi
      exact h2 hc
  · rw [hR]
    exact h3.trans (trimList_infix_self l)
  · rw [hR]
    show stripSemiAux ((stripSemiAux (l.length + 1) (trimList l)).length + 1)
        (trimList (stripSemiAux (l.length + 1) (trimList l))) =
      stripSemiAux (l.length + 1) (trimList l)
    rw [h1]
    exact stripSemiAux_eq_self h2 _

/-! ### Scanner lemmas -/

theorem scanToPipe_append_none {p : List Char} {c : Char} (bs : List Char)
    (hp : scanToPipe p = none) (hws : isSpaceChar c = false) (hpipe : c ≠ '|') :
    scanToPipe (p ++ c :: bs) = none := by
  induction p with
  | nil => simp [scanToPipe, hws, hpipe]
  | cons a p' ih =>
    simp only [List.cons_append, scanToPipe] at hp ⊢
    cases hwa : isSpaceChar a with
    | true =>
      simp only [hwa, if_true, Option.map_eq_none'] at hp ⊢
      exact ih hp
    | false =>
      simp only [hwa] at hp ⊢
      by_cases hpa : a = '|'
      · simp [hpa] at hp
      · simp only [hpa, if_false] at hp ⊢
        simp [hpa]

theorem scanToClose_append_none {p : List Char} {c : Char} (bs : List Char)
    (hp : scanToClose p = none) (hws : isSpaceChar c = false) (hclose : c ≠ ')') :
    scanToClose (p ++ c :: bs) = none := by
  induction p with
  | nil => simp [scanToClose, hws, hclose]
  | cons a p' ih =>
    simp only [List.cons_append, scanToClose] at hp ⊢
    cases hwa : isSpaceChar a with
    | true =>
      simp only [hwa, if_true, Option.map_eq_none'] at hp ⊢
      exact ih hp
    | false =>
      simp only [hwa] at hp ⊢
      by_cases hpa : a = ')'
      · simp [hpa] at hp
      · simp [hpa]

theorem findStartMarker_append {pre : List Char} (rest : List Char)
    (hpre : findStartMarker pre = none) :
    findStartMarker (pre ++ '(' :: '|' :: rest) = some (pre.length, pre.length + 2) := by
  induction pre with
  | nil => rfl
  | cons a p' ih =>
    simp only [List.cons_append, findStartMarker] at hpre ⊢
    by_cases ha : a = '('
    · rw [if_pos ha] at hpre ⊢
      cases hsp : scanToPipe p' with
      | some k => rw [hsp] at hpre; simp at hpre
      | none =>
        rw [hsp, Option.map_eq_none'] at hpre
        have hsp2 : scanToPipe (p' ++ '(' :: '|' :: rest) = none :=
          scanToPipe_append_none _ hsp (by decide) (by decide)
        simp only [List.append_eq]
        rw [hsp2, ih hpre]
        simp only [Option.map_some', Option.some.injEq, Prod.mk.injEq, List.length_cons]
    · rw [if_neg ha] at hpre ⊢
      rw [Option.map_eq_none'] at hpre
      simp only [List.append_eq]
      rw [ih hpre]
      simp only [Option.map_some', Option.some.injEq, Prod.mk.injEq, List.length_cons]

theorem findEndMarker_append {inner : List Char} (post : List Char)
    (hin : findEndMarker inner = none) :
    findEndMarker (inner ++ '|' :: ')' :: post) = some (inner.length, inner.length + 1) := by
  induction inner with
  | nil => rfl
  | cons a p' ih =>
    simp only [List.cons_append, findEndMarker] at hin ⊢
    by_cases ha : a = '|'
    · rw [if_pos ha] at hin ⊢
      cases hsp : scanToClose p' with
      | some k => rw [hsp] at hin; simp at hin
      | none =>
        rw [hsp, Option.map_eq_none'] at hin
        have hsp2 : scanToClose (p' ++ '|' :: ')' :: post) = none :=
          scanToClose_append_none _ hsp (by decide) (by decide)
        simp only [List.append_eq]
        rw [hsp2, ih hin]
        simp only [Option.map_some', Option.some.injEq, Prod.mk.injEq, List.length_cons]
    · rw [if_neg ha] at hin ⊢
      rw [Option.map_eq_none'] at hin
      simp only [List.append_eq]
      rw [ih hin]
      simp only [Option.map_some', Option.some.injEq, Prod.mk.injEq, List.length_cons]

/-- C2 counterexample: the claim as stated fails.  First instance:
`inner = "| )"` contains no literal `"|)"` substring, yet with
`pre = post = ""` the end-marker scan (which skips whitespace between
`|` and `)`) matches inside `inner`, so the round trip recovers `""`
instead of `inner`.  Second instance: with `pre = "( |"` (itself a
start marker under the scanner's whitespace-skipping rule) and
`inner = "a"`, the start scan matches inside the prefix, recovering
`"(|a"`. -/
theorem c2_literal_substring_cex :
    (containsSub ['|', ')'] ['|', ' ', ')'] = false ∧
      recoverEmbedded ('(' :: '|' :: (['|', ' ', ')'] ++ '|' :: ')' :: [])) ≠
        some ['|', ' ', ')']) ∧
    (containsSub ['|', ')'] ['a'] = false ∧
      recoverEmbedded ("( |".toList ++ '(' :: '|' :: (['a'] ++ '|' :: ')' :: [])) ≠
        some ['a']) := by
  decide

/-- C2 amended: for every `pre` in which the start-marker scan finds no
start marker and every `inner` in which the end-marker scan finds no
end marker (the whitespace-skipping scanner conditions, strictly
stronger than the absence of a literal `"|)"` substring), running the
start-marker scan on `pre ++ "(|" ++ inner ++ "|)" ++ post` followed by
the end-marker scan from the returned content start recovers exactly
`inner`. -/
theorem c2_scanner_roundtrip_amended (pre inner post : List Char)
    (hpre : findStartMarker pre = none) (hin : findEndMarker inner = none) :
    recoverEmbedded (pre ++ '(' :: '|' :: (inner ++ '|' :: ')' :: post)) = some inner := by
  have hstart := findStartMarker_append (inner ++ '|' :: ')' :: post) hpre
  have hdrop : (pre ++ '(' :: '|' :: (inner ++ '|' :: ')' :: post)).drop (pre.length + 2) =
      inner ++ '|' :: ')' :: post := by
    rw [show pre ++ '(' :: '|' :: (inner ++ '|' :: ')' :: post) =
        (pre ++ ['(', '|']) ++ (inner ++ '|' :: ')' :: post) from by simp]
    exact List.drop_left' (by simp)
  have hend := findEndMarker_append post hin
  rw [recoverEmbedded, FindEmbeddedStartMarker, List.drop_zero, hstart]
  simp only [Option.map_some', Nat.zero_add]
  rw [FindEmbeddedEndMarker, hdrop, hend]
  simp only [Option.map_some']
  have hsub : pre.length + 2 + inner.length - (pre.length + 2) = inner.length := by omega
  rw [hsub]
  rw [List.take_left' rfl]

/-- C2 witness: a concrete round trip through the amended theorem. -/
theorem c2_roundtrip_witness :
    recoverEmbedded ("SELECT a FROM ".toList ++ '(' :: '|' ::
        ("t %>% select(a)".toList ++ '|' :: ')' :: " WHERE a > 1".toList)) =
      some ("t %>% select(a)".toList) :=
  c2_scanner_roundtrip_amended _ _ _ (by decide) (by decide)

/-! ### Nesting-depth characterization -/

theorem prefix_cons_cases {p : List Char} {a : Char} {l : List Char} :
    p <+: (a :: l) ↔ p = [] ∨ ∃ q, p = a :: q ∧ q <+: l := by
  constructor
  · rintro ⟨t, ht⟩
    cases p with
    | nil => exact Or.inl rfl
    | cons b q =>
      rw [List.cons_append] at ht
      injection ht with h1 h2
      subst h1
      exact Or.inr ⟨q, rfl, t, h2⟩
  · rintro (rfl | ⟨q, rfl, t, ht⟩)
    · exact ⟨a :: l, rfl⟩
    · exact ⟨t, by rw [List.cons_append, ht]⟩

theorem depthOf_cons (c : Char) (l : List Char) :
    depthOf (c :: l) = bracketDelta c + depthOf l := by
  simp [depthOf]

theorem depth_bridge (c : Char) (rest : List Char) (d δ : Int)
    (hδ : bracketDelta c = δ) (hd : d ≤ 50) :
    (∀ p, p <+: (c :: rest) → d + depthOf p ≤ 50) ↔
      (∀ q, q <+: rest → (d + δ) + depthOf q ≤ 50) := by
  constructor
  · intro h q hq
    have := h (c :: q) (prefix_cons_cases.mpr (Or.inr ⟨q, rfl, hq⟩))
    rw [depthOf_cons, hδ] at this
    omega
  · intro h p hp
    rcases prefix_cons_cases.mp hp with rfl | ⟨q, rfl, hq⟩
    · simpa [depthOf] using hd
    · have := h q hq
      rw [depthOf_cons, hδ]
      omega

theorem nestingLoop_ok_iff :
    ∀ (l : List Char) (d : Int), d ≤ 50 →
      (nestingLoop l d = .ok () ↔ ∀ p, p <+: l → d + depthOf p ≤ 50) := by
  intro l
  induction l with
  | nil =>
    intro d hd
    constructor
    · intro _ p hp
      have hpn : p = [] := by
        obtain ⟨t, ht⟩ := hp
        exact (List.append_eq_nil.mp ht).1
      subst hpn
      simpa [depthOf] using hd
    · intro _; rfl
  | cons c rest ih =>
    intro d hd
    by_cases hop : (c = '(' || c = '[' || c = '{') = true
    · have hδ : bracketDelta c = 1 := by simp [bracketDelta, hop]
      by_cases hover : d + 1 > 50
      · constructor
        · intro h
          exfalso
          simp only [nestingLoop, hop, if_true] at h
          rw [if_pos hover] at h
          exact absurd h (by simp)
        · intro hall
          exfalso
          have := hall [c] ⟨rest, rfl⟩
          rw [show depthOf [c] = 1 from by simp [depthOf, hδ]] at this
          omega
      · have heq : nestingLoop (c :: rest) d = nestingLoop rest (d + 1) := by
          simp only [nestingLoop, hop, if_true]
          rw [if_neg hover]
        rw [heq, ih (d + 1) (by omega)]
        exact (depth_bridge c rest d 1 hδ hd).symm
    · by_cases hcl : (c = ')' || c = ']' || c = '}') = true
      · have hδ : bracketDelta c = -1 := by simp [bracketDelta, hop, hcl]
        have heq : nestingLoop (c :: rest) d = nestingLoop rest (d - 1) := by
          simp [nestingLoop, hop, hcl]
        rw [heq, ih (d - 1) (by omega)]
        have hb := depth_bridge c rest d (-1) hδ hd
        rw [show d + (-1 : Int) = d - 1 from by ring] at hb
        exact hb.symm
      · have hδ : bracketDelta c = 0 := by simp [bracketDelta, hop, hcl]
        have heq : nestingLoop (c :: rest) d = nestingLoop rest d := by
          simp [nestingLoop, hop, hcl]
        rw [heq, ih d hd]
        have hb := depth_bridge c rest d 0 hδ hd
        rw [show d + (0 : Int) = d from by ring] at hb
        exact hb.symm

theorem depthOf_nonpos {l : List Char} (h : ∀ c ∈ l, bracketDelta c ≤ 0) :
    depthOf l ≤ 0 := by
  induction l with
  | nil => simp [depthOf]
  | cons a t ih =>
    rw [depthOf_cons]
    have h1 := h a (by simp)
    have h2 := ih (fun c hc => h c (by simp [hc]))
    omega

/-- C4: the nesting-depth check rejects a fragment if and only if some
prefix of the fragment has running bracket depth exceeding 50; in
particular 51 unmatched `(` are rejected, exactly 50 are accepted, and
a fragment whose running depth never goes positive (more closers than
openers throughout, the depth going negative) is never rejected by this
check. -/
theorem c4_nesting_depth_characterization :
    (∀ code : List Char,
      (validate_nesting_depth code).isOk = false ↔
        ∃ p, p <+: code ∧ depthOf p > 50) ∧
    (validate_nesting_depth (List.replicate 51 '(')).isOk = false ∧
    (validate_nesting_depth (List.replicate 50 '(')).isOk = true ∧
    (∀ code : List Char, (∀ c ∈ code, bracketDelta c ≤ 0) →
      (validate_nesting_depth code).isOk = true) := by
  have hmain : ∀ code : List Char,
      (validate_nesting_depth code).isOk = false ↔
        ∃ p, p <+: code ∧ depthOf p > 50 := by
    intro code
    have h := nestingLoop_ok_iff code 0 (by norm_num)
    simp only [zero_add] at h
    constructor
    · intro hko
      by_contra hno
      push_neg at hno
      have hok : nestingLoop code 0 = .ok () :=
        h.mpr (fun p hp => by have := hno p hp; omega)
      rw [validate_nesting_depth, hok] at hko
      simp [Except.isOk, Except.toBool] at hko
    · rintro ⟨p, hp, hgt⟩
      cases hok : nestingLoop code 0 with
      | error e => rw [validate_nesting_depth, hok]; rfl
      | ok u =>
        exfalso
        cases u
        have := h.mp hok p hp
        omega
  refine ⟨hmain, by decide, by decide, ?_⟩
  intro code hcl
  have h := nestingLoop_ok_iff code 0 (by norm_num)
  simp only [zero_add] at h
  have hok : nestingLoop code 0 = .ok () := by
    refine h.mpr (fun p hp => ?_)
    have hmem : ∀ c ∈ p, bracketDelta c ≤ 0 := fun c hc => hcl c (hp.subset hc)
    have := depthOf_nonpos hmem
    omega
  rw [validate_nesting_depth, hok]
  rfl

/-! ### Session-state variant of the acceptance protocol (C1) -/

/-- C1 counterexample: after `dplyr_bind` has consumed the artifact
stored by `dplyr_plan`, the session state is unchanged and the artifact
is still observable by a second read — `dplyr_bind` performs no
removal or clearing (it only calls `registered_state->Get`), refuting
the read-and-cleared-at-Bind part of the claim. -/
theorem c1_bind_does_not_clear_cex :
    dplyrBindRead (dplyrPlanState (some 7) (⟨none⟩ : SessionState Nat)) = .ok 7 ∧
    dplyrBindState (dplyrPlanState (some 7) (⟨none⟩ : SessionState Nat)) =
      dplyrPlanState (some 7) (⟨none⟩ : SessionState Nat) ∧
    dplyrBindRead (dplyrBindState (dplyrPlanState (some 7) (⟨none⟩ : SessionState Nat))) =
      .ok 7 :=
  ⟨rfl, rfl, rfl⟩

/-- C1 amended: Plan stores the artifact under "dplyr" (Remove then
Insert) and Bind reads it back, but Bind does not remove or clear it —
the session state is left unchanged; independently, the artifact is
forcibly cleared when the query ends (`DplyrState::QueryEnd` resets
`parse_data`) whether or not Bind consumed it, so after query end no
bind on the same session can observe any artifact. -/
theorem c1_session_state_amended (α : Type) (a : α) (s s0 : SessionState α) :
    dplyrBindRead (dplyrPlanState (some a) s0) = .ok a ∧
    dplyrBindState s = s ∧
    dplyrQueryEnd (dplyrPlanState (some a) s0) = ⟨some none⟩ ∧
    (dplyrBindRead (dplyrQueryEnd s)).isOk = false := by
  refine ⟨rfl, rfl, rfl, ?_⟩
  obtain ⟨r⟩ := s
  cases r with
  | none => rfl
  | some x => rfl

/-! ### Transpile Invoker timeout (C7) -/

/-- C7: when the engine call returns success but the measured elapsed
wall time exceeds the configured maximum processing time, the invoker
reports a timeout failure (the post-hoc `check_processing_timeout`
throw) and the successful generated text is discarded — never returned
to the caller. -/
theorem c7_timeout_discards_success (maxMs : Nat) (eng : Engine) (code : List Char)
    (hsucc : dplyr_is_success (eng code).result = true)
    (hover : (eng code).elapsedMs > maxMs) :
    TranspileDplyrCode maxMs eng code = .error (.timeout (eng code).elapsedMs maxMs) ∧
    ∀ sql, TranspileDplyrCode maxMs eng code ≠ .ok sql := by
  have h : TranspileDplyrCode maxMs eng code =
      .error (.timeout (eng code).elapsedMs maxMs) := by
    simp [TranspileDplyrCode, hover]
  exact ⟨h, fun sql hc => by rw [h] at hc; exact absurd hc (by simp)⟩

/-- C7 witness: engine success with elapsed 6000ms against a 5000ms
budget is reported as a timeout. -/
theorem c7_timeout_witness :
    TranspileDplyrCode 5000 (fun _ => ⟨0, some "SELECT 1".toList, none, 6000⟩)
      "x".toList = .error (.timeout 6000 5000) :=
  (c7_timeout_discards_success 5000 (fun _ => ⟨0, some "SELECT 1".toList, none, 6000⟩)
    "x".toList (by decide) (by decide)).1

/-! ### Replacer pass-through (C3) -/

/-- C3: for every input in which the start-marker scan finds no start
marker, the Fragment Replacer returns the input unchanged and raises no
error — for every validator and every engine, so neither validation
nor a transpiler invocation can influence the result. -/
theorem c3_no_marker_identity (v : Validator) (maxMs : Nat) (eng : Engine)
    (text : List Char) (h : findStartMarker text = none) :
    replaceEmbeddedAux v maxMs eng (text.length + 1) text = .ok text ∧
    ReplaceEmbeddedPipelines maxMs eng text = .ok text := by
  constructor
  · simp [replaceEmbeddedAux, h]
  · rw [ReplaceEmbeddedPipelines]
    simp [replaceEmbeddedAux, h]

/-- C3 witness: a marker-free query passes through untouched. -/
theorem c3_witness :
    ReplaceEmbeddedPipelines 1000 (fun _ => ⟨0, none, none, 0⟩)
      "SELECT 1 FROM t".toList = .ok ("SELECT 1 FROM t".toList) :=
  (c3_no_marker_identity validate_input_security 1000 (fun _ => ⟨0, none, none, 0⟩)
    "SELECT 1 FROM t".toList (by decide)).2

/-! ### Injection blocklist (C6) -/

theorem validate_ok_advanced_ok {code : List Char} {u : Unit}
    (h : validate_input_security code = .ok u) :
    validate_advanced_security_patterns code = .ok () := by
  rw [validate_input_security] at h
  cases h1 : validate_character_safety code with
  | error e => simp [h1] at h
  | ok u1 =>
    simp only [h1] at h
    cases h2 : validate_nesting_depth code with
    | error e => simp [h2] at h
    | ok u2 =>
      simp only [h2] at h
      cases h3 : validate_repetitive_patterns code with
      | error e => simp [h3] at h
      | ok u3 =>
        simp only [h3] at h
        cases h4 : validate_resource_patterns code with
        | error e => simp [h4] at h
        | ok u4 =>
          simp only [h4] at h
          cases u
          exact h

theorem system_infix_advanced_error {code : List Char}
    (h : containsSub ("system(".toList) code = true) :
    validate_advanced_security_patterns code =
      .error (.suspiciousPattern ("system(".toList)) := by
  rw [validate_advanced_security_patterns, injectionPatterns]
  simp only [firstMatch, h, if_true]

/-- C6: every fragment containing the substring `"system("` is rejected
by the Input Security Validator, and the combined
validate-then-transpile sequence (as each call site performs it) gives
the same rejection for every engine — the transpiler is never reached
on such a fragment. -/
theorem c6_system_pattern_rejected (code : List Char)
    (h : containsSub ("system(".toList) code = true) :
    (validate_input_security code).isOk = false ∧
    ∀ (maxMs : Nat) (eng eng' : Engine),
      validateThenTranspile maxMs eng code = validateThenTranspile maxMs eng' code := by
  cases hv : validate_input_security code with
  | ok u =>
    exfalso
    have hadv := validate_ok_advanced_ok hv
    rw [system_infix_advanced_error h] at hadv
    exact absurd hadv (by simp)
  | error e =>
    constructor
    · rfl
    · intro maxMs eng eng'
      simp only [validateThenTranspile, hv]

/-- C6 witness: a concrete fragment with `system(` buried in otherwise
valid syntax is rejected independently of the engine. -/
theorem c6_witness :
    (validate_input_security "df %>% mutate(y=system(ls))".toList).isOk = false ∧
    ∀ (maxMs : Nat) (eng eng' : Engine),
      validateThenTranspile maxMs eng "df %>% mutate(y=system(ls))".toList =
        validateThenTranspile maxMs eng' "df %>% mutate(y=system(ls))".toList :=
  c6_system_pattern_rejected _ (by decide)

/-! ### Parse entry point (C5, C9) -/

theorem pipe_infix_ne_nil {l : List Char} (h : containsSub pipeToken l = true) :
    l ≠ [] := by
  intro he
  subst he
  exact absurd h (by decide)

/-- C5: for every query (with markers, engaged by the parse entry
point) whose full replacement succeeds, if the replaced output still
contains the chain operator `%>%`, `dplyr_parse` returns the
"Unprocessed %>% pipeline remains" error result instead of a success
carrying the partially-transpiled text. -/
theorem c5_leftover_pipe_rejected (maxMs : Nat) (eng : Engine) (q out : List Char)
    (hpipe : containsSub pipeToken (trimList q) = true)
    (hemb : ContainsEmbeddedPipelines (trimList q) = true)
    (hrep : ReplaceEmbeddedPipelines maxMs eng (trimList q) = .ok out)
    (hleft : containsSub pipeToken out = true) :
    dplyr_parse maxMs eng q = .failure .unprocessedPipeline := by
  have hne : trimList q ≠ [] := pipe_infix_ne_nil hpipe
  have hbody : dplyrParseBody maxMs eng (trimList q) = .error .unprocessedPipeline := by
    simp only [dplyrParseBody, hemb, if_true, hrep, hleft]
  simp [dplyr_parse, hpipe, hne, hbody]

/-- C5 witness: replacing the embedded segment of
`"(|t %>% select(x)|) %>% q"` leaves a chain operator outside markers,
and the parse entry point rejects the query. -/
theorem c5_witness :
    dplyr_parse 1000 (fun _ => ⟨0, some "SELECT 1".toList, none, 0⟩)
      "(|t %>% select(x)|) %>% q".toList = .failure .unprocessedPipeline :=
  c5_leftover_pipe_rejected 1000 (fun _ => ⟨0, some "SELECT 1".toList, none, 0⟩)
    "(|t %>% select(x)|) %>% q".toList "(SELECT 1) %>% q".toList
    (by decide) (by decide) (by rfl) (by decide)

/-- C9: the parse entry point accepts a generated query text only if
that text, uppercased and trimmed, begins with `SELECT` or `WITH`; when
the generated text fails this check, parse returns the
"only SELECT is supported" error result. -/
theorem c9_accepted_sql_select_or_with :
    (∀ (maxMs : Nat) (eng : Engine) (q sql : List Char),
      dplyr_parse maxMs eng q = .success sql → checkSelectOrWith sql = true) ∧
    (∀ (maxMs : Nat) (eng : Engine) (q sql : List Char),
      containsSub pipeToken (trimList q) = true →
      dplyrParseBody maxMs eng (trimList q) = .ok sql →
      checkSelectOrWith sql = false →
      dplyr_parse maxMs eng q = .failure .nonSelect) := by
  constructor
  · intro maxMs eng q sql h
    simp only [dplyr_parse] at h
    split at h
    · exact absurd h (by simp)
    · split at h
      · exact absurd h (by simp)
      · split at h
        · exact absurd h (by simp)
        · split at h
          · rename_i sql' hbody hc
            simp only [ParseResult.success.injEq] at h
            subst h
            exact hc
          · exact absurd h (by simp)
  · intro maxMs eng q sql hpipe hbody hcheck
    have hne : trimList q ≠ [] := pipe_infix_ne_nil hpipe
    simp [dplyr_parse, hpipe, hne, hbody, hcheck]

/-- C9 witness: a concrete accepted parse, applied to the first
conjunct of the theorem. -/
theorem c9_witness :
    checkSelectOrWith ("SELECT x FROM t".toList) = true :=
  c9_accepted_sql_select_or_with.1 5000 (fun _ => ⟨0, some "SELECT x FROM t".toList, none, 0⟩)
    "t %>% select(x)".toList "SELECT x FROM t".toList (by rfl)

/-! ### Error Formatter (C8) -/

/-- C8: for every fragment and the SyntaxError code, the formatted
message contains the fragment echo — the full fragment verbatim when
it is at most 200 characters, else its first 197 characters with the
ellipsis marker appended, in either case at most 200 characters — and
contains the recoverable trailer; this holds for every code-name
function and configured limits (which live in the external C API). -/
theorem c8_formatter_syntax_error (nameFn : Int → List Char) (maxL maxT : Nat)
    (msg frag : List Char) :
    (syntaxErrorEcho frag).length ≤ 200 ∧
    syntaxErrorEcho frag <:+:
      format_error_message nameFn maxL maxT DPLYR_ERROR_SYNTAX msg frag ∧
    recoverableTrailer <:+:
      format_error_message nameFn maxL maxT DPLYR_ERROR_SYNTAX msg frag := by
  have htrunc : truncate_code_for_display frag =
      squote :: (syntaxErrorEcho frag ++ [squote]) := by
    rw [truncate_code_for_display, syntaxErrorEcho]
    by_cases hlen : frag.length ≤ 200
    · rw [if_pos hlen, if_pos hlen]
    · rw [if_neg hlen, if_neg hlen]
      simp [List.append_assoc]
  have hfmt : format_error_message nameFn maxL maxT DPLYR_ERROR_SYNTAX msg frag =
      (if nameFn DPLYR_ERROR_SYNTAX = [] then msg
       else '[' :: (nameFn DPLYR_ERROR_SYNTAX ++ (']' :: ' ' :: msg))) ++
        (inputCodeHeader ++ (truncate_code_for_display frag ++
          (suggestionsHeader ++ get_error_suggestions maxL maxT DPLYR_ERROR_SYNTAX))) ++
        recoverableTrailer := rfl
  refine ⟨?_, ?_, ?_⟩
  · rw [syntaxErrorEcho]
    by_cases hlen : frag.length ≤ 200
    · rw [if_pos hlen]; exact hlen
    · rw [if_neg hlen]
      simp only [List.length_append, List.length_take, List.length_cons, List.length_nil]
      omega
  · rw [hfmt, htrunc]
    refine ⟨(if nameFn DPLYR_ERROR_SYNTAX = [] then msg
       else '[' :: (nameFn DPLYR_ERROR_SYNTAX ++ (']' :: ' ' :: msg))) ++
        (inputCodeHeader ++ [squote]),
      [squote] ++ (suggestionsHeader ++ get_error_suggestions maxL maxT DPLYR_ERROR_SYNTAX) ++
        recoverableTrailer, ?_⟩
    simp [List.append_assoc]
  · rw [hfmt]
    exact ⟨(if nameFn DPLYR_ERROR_SYNTAX = [] then msg
       else '[' :: (nameFn DPLYR_ERROR_SYNTAX ++ (']' :: ' ' :: msg))) ++
        (inputCodeHeader ++ (truncate_code_for_display frag ++
          (suggestionsHeader ++ get_error_suggestions maxL maxT DPLYR_ERROR_SYNTAX))),
      [], by rw [List.append_nil]⟩

end LibDplyr
